import Mathlib

/-!
# Beatrice packet-capture SDK: a shallow embedding of the parser, filter,
# registry and backend state machines, with proofs about it.

Each definition mirrors one C++ function of the repository (file and
function named in its doc comment).  Machine integers are modelled as
`Nat`/`Int` with explicit reduction modulo `2 ^ 64` at every arithmetic
site where the C++ computes in `size_t`; byte buffers are `List Nat`
whose elements stand for `uint8_t` values (< 256 in every reachable
C++ state).  Wall-clock measurements (`std::chrono` durations) never
influence control flow in the parser; they are carried as explicit
integer parameters where a modelled function consumes them and omitted
from result records otherwise.
-/

namespace Beatrice

/-- `2 ^ 64`, the modulus of `size_t` arithmetic on the target (LP64 Linux). -/
def U64 : Nat := 2 ^ 64

/-- Reduction of a `Nat` to its `size_t` value: every C++ `size_t` sum in the
source is embedded as `wrap64` of the mathematical sum. -/
def wrap64 (n : Nat) : Nat := n % U64

/-- `include/parser/FieldDefinition.hpp`, `enum class Endianness`. -/
inductive Endianness where
  | LITTLE
  | BIG
  | NETWORK
  | HOST
deriving DecidableEq

/-- `include/parser/FieldDefinition.hpp`, `enum class FieldType`. -/
inductive FieldType where
  | UINT8 | UINT16 | UINT32 | UINT64
  | INT8 | INT16 | INT32 | INT64
  | FLOAT32 | FLOAT64
  | BYTES | STRING | BOOLEAN
  | MAC_ADDRESS | IPV4_ADDRESS | IPV6_ADDRESS
  | TIMESTAMP | CUSTOM
deriving DecidableEq

/-- `include/parser/ParserResult.hpp`, `enum class FieldValueType`
(same constructors as `FieldType`). -/
inductive FieldValueType where
  | UINT8 | UINT16 | UINT32 | UINT64
  | INT8 | INT16 | INT32 | INT64
  | FLOAT32 | FLOAT64
  | BYTES | STRING | BOOLEAN
  | MAC_ADDRESS | IPV4_ADDRESS | IPV6_ADDRESS
  | TIMESTAMP | CUSTOM
deriving DecidableEq

/-- `include/parser/ParserResult.hpp`, `enum class ParseStatus`. -/
inductive ParseStatus where
  | SUCCESS
  | INVALID_PROTOCOL
  | INVALID_LENGTH
  | FIELD_NOT_FOUND
  | VALIDATION_FAILED
  | ENDIANNESS_ERROR
  | CHECKSUM_ERROR
  | CUSTOM_ERROR
  | PROTOCOL_NOT_FOUND
  | PACKET_TOO_SHORT
deriving DecidableEq

/-- `include/parser/FieldDefinition.hpp`, `enum class ValidationRule`. -/
inductive ValidationRule where
  | NONE | RANGE | ENUM | PATTERN | CHECKSUM | CUSTOM
deriving DecidableEq

/-- The `std::variant` payload of `FieldValue`
(`include/parser/ParserResult.hpp`).  Floating-point alternatives store the
raw bit pattern produced by the extraction routine (the C++ reinterprets the
same bits as `float`/`double`); byte vectors and strings are carried as such. -/
inductive FVal where
  | u8 (v : Nat)
  | u16 (v : Nat)
  | u32 (v : Nat)
  | u64 (v : Nat)
  | i8 (v : Int)
  | i16 (v : Int)
  | i32 (v : Int)
  | i64 (v : Int)
  | f32bits (v : Nat)
  | f64bits (v : Nat)
  | bytes (v : List Nat)
  | strv (v : String)
  | boolv (v : Bool)
deriving DecidableEq

/-- `include/parser/ParserResult.hpp`, `struct FieldValue`.  The measured
`parseTime` member is omitted (wall-clock, never read by control flow). -/
structure FieldValue where
  value : FVal
  type : FieldValueType
  rawHex : String
  formatted : String
  valid : Bool
  errorMessage : String
deriving DecidableEq

/-- The C++ `FieldValue()` default constructor: variant holds `uint8_t 0`,
`type = UINT8`, `valid = false`. -/
def defaultFieldValue : FieldValue :=
  { value := .u8 0, type := .UINT8, rawHex := "", formatted := "", valid := false,
    errorMessage := "" }

/-- `include/parser/FieldDefinition.hpp`, `struct FieldConstraint`.
`minValueU`/`maxValueU` are `some v` exactly when the C++
`std::variant<int64_t, uint64_t, double, std::string>` holds its `uint64_t`
alternative (index 1), the only alternative `validateField` ever reads.
`allowedValues` and `customValidator` are never read by the embedded code
paths and are omitted. -/
structure FieldConstraint where
  minValueU : Option Nat
  maxValueU : Option Nat
  pattern : String

/-- `include/parser/FieldDefinition.hpp`, `struct FieldDefinition`.
`offset` and `length` stand for `size_t` members; arithmetic on them is
wrapped at each operation.  The inverse-parsing callback is never invoked by
the embedded code paths and is omitted; `formatter` is kept because
`extractField` applies it to `CUSTOM` fields. -/
structure FieldDefinition where
  name : String
  offset : Nat
  length : Nat
  type : FieldType
  endianness : Endianness
  required : Bool
  description : String
  constraint : Option FieldConstraint
  formatter : Option (List Nat → String)

/-- `include/parser/FieldDefinition.hpp`, `struct ProtocolDefinition`.
`fieldIndexMap` (only read by `getField`, which no modelled path calls) and
the optional `validator`/`formatter` callbacks (never invoked: the parser's
`validateChecksum` ignores them) are omitted. -/
structure ProtocolDefinition where
  name : String
  version : String
  description : String
  fields : List FieldDefinition

/-- `src/parser/FieldDefinition.cpp`, the loop body of
`ProtocolDefinition::getTotalLength`: keeps the `(maxOffset, maxLength)`
pair of the field whose wrapped end `offset + length` is largest so far. -/
def maxEndStep (acc : Nat × Nat) (f : FieldDefinition) : Nat × Nat :=
  if wrap64 (f.offset + f.length) > wrap64 (acc.1 + acc.2) then (f.offset, f.length) else acc

/-- `src/parser/FieldDefinition.cpp`, `ProtocolDefinition::getTotalLength`. -/
def ProtocolDefinition.getTotalLength (p : ProtocolDefinition) : Nat :=
  if p.fields.isEmpty then 0
  else
    let m := p.fields.foldl maxEndStep (0, 0)
    wrap64 (m.1 + m.2)

/-- `packet[i]` on a byte buffer; the default is only reached on reads the
C++ performs past the end of the vector (undefined behaviour, see C4). -/
def byteAt (packet : List Nat) (i : Nat) : Nat := packet.getD i 0

/-- `std::vector<uint8_t>(packet.begin() + o, packet.begin() + o + l)`. -/
def sliceBytes (packet : List Nat) (o l : Nat) : List Nat := (packet.drop o).take l

/-- A hexadecimal digit character, lowercase, as printed by `std::hex`. -/
def hexChar (n : Nat) : Char := if n < 10 then Char.ofNat (48 + n) else Char.ofNat (87 + n)

/-- One byte under `std::setw(2) << std::setfill('0') << std::hex`. -/
def byteToHex (b : Nat) : String := String.mk [hexChar (b % 256 / 16), hexChar (b % 16)]

/-- `src/parser/ProtocolParser.cpp`, `ProtocolParser::bytesToHex`. -/
def bytesToHex (bs : List Nat) : String := String.join (bs.map byteToHex)

/-- `src/parser/ProtocolParser.cpp`, `ProtocolParser::formatMacAddress`. -/
def formatMacAddress (bs : List Nat) : String :=
  if bs.length ≠ 6 then "invalid" else String.intercalate ":" (bs.map byteToHex)

/-- `src/parser/ProtocolParser.cpp`, `ProtocolParser::formatIPv4Address`. -/
def formatIPv4Address (bs : List Nat) : String :=
  if bs.length ≠ 4 then "invalid" else String.intercalate "." (bs.map (fun b => toString b))

/-- A `Nat` under plain `std::hex` (no width padding; `0` prints as "0"). -/
def natToHex (n : Nat) : String := String.mk (Nat.toDigits 16 n)

/-- `src/parser/ProtocolParser.cpp`, `ProtocolParser::formatIPv6Address`:
eight 16-bit groups in unpadded hex, colon-separated. -/
def formatIPv6Address (bs : List Nat) : String :=
  if bs.length ≠ 16 then "invalid"
  else String.intercalate ":"
    ((List.range 8).map (fun g => natToHex ((byteAt bs (2 * g)) * 256 + byteAt bs (2 * g + 1))))

/-- `src/parser/ProtocolParser.cpp`, `ProtocolParser::formatTimestamp` renders
through `std::localtime`, an environment input; the rendered text is opaque to
every modelled property and is embedded as the empty string. -/
def formatTimestamp (_ : Nat) : String := ""

/-- Little-endian accumulation loop of `ProtocolParser::extractValue<T>`
(`src/parser/ProtocolParser.cpp`): `value |= packet[offset + i] << (i * 8)`,
truncated to the `w`-bit destination at each assignment, exactly as the C++
`T` assignment truncates. -/
def extractLE (w : Nat) (packet : List Nat) (o l : Nat) : Nat :=
  (List.range l).foldl (fun v i => (v ||| (byteAt packet (o + i) <<< (8 * i))) % 2 ^ w) 0

/-- Big-endian accumulation loop of `ProtocolParser::extractValue<T>`:
`value |= packet[offset + length - 1 - i] << (i * 8)`. -/
def extractBE (w : Nat) (packet : List Nat) (o l : Nat) : Nat :=
  (List.range l).foldl (fun v i => (v ||| (byteAt packet (o + l - 1 - i) <<< (8 * i))) % 2 ^ w) 0

/-- `src/parser/ProtocolParser.cpp`, `ProtocolParser::extractValue<T>` for the
unsigned integer instantiations (`w` bits wide).  The source branches on
`endian == Endianness::LITTLE` only: `BIG`, `NETWORK` and `HOST` all take the
big-endian branch. -/
def extractValueU (w : Nat) (packet : List Nat) (o l : Nat) (endian : Endianness) : Nat :=
  if wrap64 (o + l) > packet.length then 0
  else match endian with
    | .LITTLE => extractLE w packet o l
    | _ => extractBE w packet o l

/-- Two's-complement reinterpretation of the low `w` bits, as performed by the
C++ assignment of the accumulated value to a signed `w`-bit integer (g++
wrapping semantics). -/
def toSigned (w : Nat) (n : Nat) : Int :=
  if n % 2 ^ w < 2 ^ (w - 1) then ((n % 2 ^ w : Nat) : Int)
  else ((n % 2 ^ w : Nat) : Int) - ((2 ^ w : Nat) : Int)

/-- `std::string(fieldData.begin(), fieldData.end())`. -/
def stringOfBytes (bs : List Nat) : String := String.mk (bs.map (fun b => Char.ofNat (b % 256)))

/-- `src/parser/ProtocolParser.cpp`, `ProtocolParser::extractField`.  The
out-of-range guard repeats `extractValue`'s wrapped `size_t` comparison; the
`BOOLEAN` case reads `fieldData[0]`, which for a zero-length field is a read
past the vector in the C++ (modelled by the `getD` default). -/
def extractField (packet : List Nat) (field : FieldDefinition) : FieldValue :=
  if wrap64 (field.offset + field.length) > packet.length then defaultFieldValue
  else
    let fieldData := sliceBytes packet field.offset field.length
    let base : FieldValue :=
      { value := .u8 0, type := .UINT8, rawHex := bytesToHex fieldData, formatted := "",
        valid := true, errorMessage := "" }
    let uval := fun w => extractValueU w packet field.offset field.length field.endianness
    match field.type with
    | .UINT8 => { base with type := .UINT8, value := .u8 (uval 8) }
    | .UINT16 => { base with type := .UINT16, value := .u16 (uval 16) }
    | .UINT32 => { base with type := .UINT32, value := .u32 (uval 32) }
    | .UINT64 => { base with type := .UINT64, value := .u64 (uval 64) }
    | .INT8 => { base with type := .INT8, value := .i8 (toSigned 8 (uval 8)) }
    | .INT16 => { base with type := .INT16, value := .i16 (toSigned 16 (uval 16)) }
    | .INT32 => { base with type := .INT32, value := .i32 (toSigned 32 (uval 32)) }
    | .INT64 => { base with type := .INT64, value := .i64 (toSigned 64 (uval 64)) }
    | .FLOAT32 => { base with type := .FLOAT32, value := .f32bits (uval 32) }
    | .FLOAT64 => { base with type := .FLOAT64, value := .f64bits (uval 64) }
    | .BYTES => { base with type := .BYTES, value := .bytes fieldData }
    | .STRING => { base with type := .STRING, value := .strv (stringOfBytes fieldData) }
    | .BOOLEAN => { base with type := .BOOLEAN, value := .boolv (byteAt fieldData 0 != 0) }
    | .MAC_ADDRESS => { base with
        type := .MAC_ADDRESS, value := .bytes fieldData,
        formatted := formatMacAddress fieldData }
    | .IPV4_ADDRESS => { base with
        type := .IPV4_ADDRESS, value := .bytes fieldData,
        formatted := formatIPv4Address fieldData }
    | .IPV6_ADDRESS => { base with
        type := .IPV6_ADDRESS, value := .bytes fieldData,
        formatted := formatIPv6Address fieldData }
    | .TIMESTAMP => { base with
        type := .TIMESTAMP, value := .u64 (uval 64),
        formatted := formatTimestamp (uval 64) }
    | .CUSTOM => { base with
        type := .CUSTOM, value := .bytes fieldData,
        formatted := match field.formatter with | some f => f fieldData | none => "" }

/-- `s.find(pat) != std::string::npos` for a non-empty `pat`: `pat` occurs as a
substring of `s`. -/
def strContains (s pat : String) : Bool := (s.splitOn pat).length > 1

/-- `src/parser/ParserResult.cpp`, `FieldValue::toString`, per value kind.
The decimal rendering that `std::to_string` applies to a reinterpreted
`float`/`double` is not modelled (the embedding carries raw bits); no modelled
property reads it.  A kind/payload mismatch makes the C++ `std::get` throw and
is unreachable from `extractField`. -/
def fvToString (v : FieldValue) : String :=
  if !v.valid then "INVALID"
  else match v.type, v.value with
    | .UINT8, .u8 n => toString n
    | .UINT16, .u16 n => toString n
    | .UINT32, .u32 n => toString n
    | .UINT64, .u64 n => toString n
    | .INT8, .i8 n => toString n
    | .INT16, .i16 n => toString n
    | .INT32, .i32 n => toString n
    | .INT64, .i64 n => toString n
    | .FLOAT32, .f32bits _ => ""
    | .FLOAT64, .f64bits _ => ""
    | .BYTES, .bytes bs => "[" ++ toString bs.length ++ " bytes]"
    | .STRING, .strv s => s
    | .BOOLEAN, .boolv b => if b then "true" else "false"
    | .MAC_ADDRESS, _ => if v.formatted = "" then "formatted" else v.formatted
    | .IPV4_ADDRESS, _ => if v.formatted = "" then "formatted" else v.formatted
    | .IPV6_ADDRESS, _ => if v.formatted = "" then "formatted" else v.formatted
    | .TIMESTAMP, _ => if v.formatted = "" then "formatted" else v.formatted
    | .CUSTOM, _ => if v.formatted = "" then "formatted" else v.formatted
    | _, _ => ""

/-- The `std::visit` in `ProtocolParser::validateField`: arithmetic
alternatives cast to `uint64_t`, everything else yields 0.  A reinterpreted
float's integral cast is not modelled (the variant never holds a float when
the value kind is unsigned, the only case the caller reads). -/
def visitToUInt64 : FVal → Nat
  | .u8 n | .u16 n | .u32 n | .u64 n => n
  | .i8 n | .i16 n | .i32 n | .i64 n => (n % ((2 ^ 64 : Nat) : Int)).toNat
  | .f32bits _ | .f64bits _ => 0
  | .bytes _ | .strv _ => 0
  | .boolv b => if b then 1 else 0

/-- Whether a value kind is one of the unsigned kinds `validateField`
range-checks. -/
def isUnsignedKind : FieldValueType → Bool
  | .UINT8 | .UINT16 | .UINT32 | .UINT64 => true
  | _ => false

/-- `src/parser/ProtocolParser.cpp`, `ProtocolParser::validateField`.  The
guard `minValue.index() != npos && maxValue.index() != npos` always holds for
engaged variants and is dropped; the two `index() == 1` tests are the
`minValueU`/`maxValueU` options. -/
def validateField (value : FieldValue) (field : FieldDefinition) : Bool :=
  if !value.valid then false
  else match field.constraint with
    | none => true
    | some c =>
      let rangeOk :=
        if isUnsignedKind value.type then
          let numValue := visitToUInt64 value.value
          (match c.minValueU with
           | some minVal => !(numValue < minVal)
           | none => true) &&
          (match c.maxValueU with
           | some maxVal => !(numValue > maxVal)
           | none => true)
        else true
      if !rangeOk then false
      else if c.pattern ≠ "" then strContains (fvToString value) c.pattern
      else true

/-- `src/parser/ProtocolParser.cpp`, `ProtocolParser::validateChecksum`:
the body is `return true;` (the built-in definitions attach no checksum). -/
def validateChecksum (_ : List Nat) (_ : ProtocolDefinition) : Bool := true

/-- `include/parser/ParserResult.hpp`, `struct ValidationResult`
(measured `validationTime` omitted). -/
structure ValidationResult where
  valid : Bool
  fieldName : String
  errorMessage : String
  expectedValue : String
  actualValue : String
  rule : ValidationRule

/-- `include/parser/ParserResult.hpp`, `struct ParseResult`.  The field map
(`std::unordered_map`) is an association list with overwrite-on-insert; the
measured `totalParseTime`/`totalValidationTime` are omitted. -/
structure ParseResult where
  status : ParseStatus
  protocolName : String
  protocolVersion : String
  fields : List (String × FieldValue)
  validationResults : List ValidationResult
  errorMessage : String
  packetLength : Nat
  parsedBytes : Nat
  rawData : List Nat

/-- `include/parser/ProtocolParser.hpp`, `ProtocolParser::ParserConfig`
(logging callbacks and the time limit omitted: never read by the embedded
paths). -/
structure ParserConfig where
  enableValidation : Bool
  enableChecksumValidation : Bool
  enableFieldConstraints : Bool
  enableCustomValidators : Bool
  enablePerformanceMetrics : Bool
  enableFieldCaching : Bool
  maxFieldCacheSize : Nat
  maxValidationErrors : Nat

/-- The `ParserConfig()` default constructor values. -/
def defaultParserConfig : ParserConfig :=
  { enableValidation := true, enableChecksumValidation := true,
    enableFieldConstraints := true, enableCustomValidators := true,
    enablePerformanceMetrics := true, enableFieldCaching := true,
    maxFieldCacheSize := 1000, maxValidationErrors := 100 }

/-- `std::unordered_map` assignment `m[k] = v`: overwrite the binding of `k`
if present, insert it otherwise. -/
def upsert {α : Type} : List (String × α) → String → α → List (String × α)
  | [], k, v => [(k, v)]
  | p :: rest, k, v => if p.1 = k then (k, v) :: rest else p :: upsert rest k v

/-- The loop state of `ProtocolParser::parsePacketInternal`: the builder's
field map and validation list plus the local `parsedBytes`. -/
structure ParseAcc where
  fields : List (String × FieldValue)
  validationResults : List ValidationResult
  parsedBytes : Nat

/-- `src/parser/ProtocolParser.cpp`, one iteration of the field loop of
`ProtocolParser::parsePacketInternal` (lines 251-275): skip the field when its
wrapped `size_t` end exceeds the buffer, otherwise extract, validate when
enabled, and advance `parsedBytes` to the wrapped field end. -/
def parseFieldStep (cfg : ParserConfig) (packet : List Nat) (acc : ParseAcc)
    (field : FieldDefinition) : ParseAcc :=
  if wrap64 (field.offset + field.length) > packet.length then acc
  else
    let fv := extractField packet field
    { fields := upsert acc.fields field.name fv
      validationResults :=
        if cfg.enableValidation && !(validateField fv field) then
          acc.validationResults ++
            [{ valid := false, fieldName := field.name,
               errorMessage := "Field validation failed", expectedValue := "",
               actualValue := "", rule := .NONE }]
        else acc.validationResults
      parsedBytes := max acc.parsedBytes (wrap64 (field.offset + field.length)) }

/-- The tail of `parsePacketInternal` after the field loop: run the checksum
validator when enabled (it always succeeds in the source) and assemble the
result. -/
def finishParse (cfg : ParserConfig) (packet : List Nat) (protocol : ProtocolDefinition)
    (acc : ParseAcc) : ParseResult :=
  if cfg.enableChecksumValidation && !(validateChecksum packet protocol) then
    { status := .CHECKSUM_ERROR, protocolName := protocol.name,
      protocolVersion := protocol.version, fields := acc.fields,
      validationResults := acc.validationResults,
      errorMessage := "Checksum validation failed", packetLength := packet.length,
      parsedBytes := acc.parsedBytes, rawData := packet }
  else
    { status := .SUCCESS, protocolName := protocol.name,
      protocolVersion := protocol.version, fields := acc.fields,
      validationResults := acc.validationResults, errorMessage := "",
      packetLength := packet.length, parsedBytes := acc.parsedBytes, rawData := packet }

/-- `src/parser/ProtocolParser.cpp`, `ProtocolParser::parsePacketInternal`. -/
def parsePacketInternal (cfg : ParserConfig) (packet : List Nat)
    (protocol : ProtocolDefinition) : ParseResult :=
  if packet.length < protocol.getTotalLength then
    { status := .PACKET_TOO_SHORT, protocolName := protocol.name,
      protocolVersion := protocol.version, fields := [], validationResults := [],
      errorMessage := "Packet too short for protocol", packetLength := packet.length,
      parsedBytes := 0, rawData := packet }
  else
    finishParse cfg packet protocol
      (protocol.fields.foldl (parseFieldStep cfg packet) ⟨[], [], 0⟩)

/-- `src/parser/ProtocolParser.cpp`, the `parsePacket` overload taking a
`ProtocolDefinition` directly: timing and the statistics side effect do not
alter the returned result. -/
def parsePacket (cfg : ParserConfig) (packet : List Nat)
    (protocol : ProtocolDefinition) : ParseResult :=
  parsePacketInternal cfg packet protocol

/-- `src/parser/ProtocolParser.cpp`,
`ProtocolParser::parsePacketMultipleProtocols`: one result per registered
protocol, in the iteration order of the (unordered) protocol map, modelled as
list order. -/
def parsePacketMultipleProtocols (cfg : ParserConfig)
    (protos : List (String × ProtocolDefinition)) (packet : List Nat) : List ParseResult :=
  protos.map (fun nv => parsePacketInternal cfg packet nv.2)

/-- `src/parser/ProtocolParser.cpp`, the `parsePacket` overload taking a
protocol name (lines 69-95).  An empty name returns
`parsePacketMultipleProtocols(packet)[0]`; `none` marks the index 0 access on
an empty vector, which is out of bounds in the C++. -/
def parsePacketByName (cfg : ParserConfig) (protos : List (String × ProtocolDefinition))
    (packet : List Nat) (protocolName : String) : Option ParseResult :=
  if protocolName = "" then (parsePacketMultipleProtocols cfg protos packet).head?
  else match protos.lookup protocolName with
    | none => some
        { status := .PROTOCOL_NOT_FOUND, protocolName := "", protocolVersion := "",
          fields := [], validationResults := [],
          errorMessage := "Protocol not found: " ++ protocolName, packetLength := 0,
          parsedBytes := 0, rawData := [] }
    | some protocol => some (parsePacketInternal cfg packet protocol)

/-- `include/parser/ProtocolParser.hpp`, `ProtocolParser::ParserStats`.
Counters are `uint64_t` (never near wrap in any modelled run) and durations
are microsecond counts (`int64_t`), modelled as `Int`. -/
structure ParserStats where
  totalPacketsParsed : Nat
  successfulParses : Nat
  failedParses : Nat
  validationErrors : Nat
  checksumErrors : Nat
  totalParseTime : Int
  totalValidationTime : Int
  averageParseTime : Int
  averageValidationTime : Int
  minParseTime : Int
  maxParseTime : Int
  protocolUsageCount : List (String × Nat)

/-- The `ParserStats` member initializers: zeros, with
`minParseTime = std::chrono::microseconds::max()` (`int64_t` max). -/
def initParserStats : ParserStats :=
  { totalPacketsParsed := 0, successfulParses := 0, failedParses := 0,
    validationErrors := 0, checksumErrors := 0, totalParseTime := 0,
    totalValidationTime := 0, averageParseTime := 0, averageValidationTime := 0,
    minParseTime := (2 ^ 63 - 1 : Int), maxParseTime := 0, protocolUsageCount := [] }

/-- `src/parser/ProtocolParser.cpp`, `ProtocolParser::updateStats`
(lines 482-506).  The result is `none` exactly when control reaches the
average computations `totalParseTime.count() / successfulParses` with
`successfulParses = 0`: an integer division by zero, undefined in C++. -/
def updateStats (stats : ParserStats) (result : ParseResult)
    (parseTime validationTime : Int) : Option ParserStats :=
  let s0 := { stats with totalPacketsParsed := stats.totalPacketsParsed + 1 }
  let s1 :=
    if result.status = ParseStatus.SUCCESS then
      { s0 with successfulParses := s0.successfulParses + 1 }
    else { s0 with failedParses := s0.failedParses + 1 }
  let s2 := { s1 with
    totalParseTime := s1.totalParseTime + parseTime,
    totalValidationTime := s1.totalValidationTime + validationTime }
  let s3 := if parseTime < s2.minParseTime then { s2 with minParseTime := parseTime } else s2
  let s4 := if parseTime > s3.maxParseTime then { s3 with maxParseTime := parseTime } else s3
  if s4.successfulParses = 0 then none
  else some { s4 with
    averageParseTime := s4.totalParseTime / (s4.successfulParses : Int),
    averageValidationTime := s4.totalValidationTime / (s4.successfulParses : Int),
    protocolUsageCount :=
      upsert s4.protocolUsageCount result.protocolName
        (((s4.protocolUsageCount.lookup result.protocolName).getD 0) + 1) }

/-- The byte range `[o, o + l)` checked against the real (unwrapped) buffer
extent: `none` when the C++ iterator arithmetic
`packet.begin() + offset ... + length` leaves the vector. -/
def sliceChecked (packet : List Nat) (o l : Nat) : Option (List Nat) :=
  if o + l ≤ packet.length then some ((packet.drop o).take l) else none

/-- `ProtocolParser::extractField` with its memory accesses made explicit:
`some` of the extracted value when every byte read stays inside the buffer,
`none` when the guard admits the field (wrapped comparison) but the range
`[offset, offset + length)` is not contained in the buffer, so the C++ reads
past the end. -/
def extractFieldChecked (packet : List Nat) (field : FieldDefinition) : Option FieldValue :=
  if wrap64 (field.offset + field.length) > packet.length then some defaultFieldValue
  else match sliceChecked packet field.offset field.length with
    | none => none
    | some _ => some (extractField packet field)

/-- `src/parser/FieldDefinition.cpp`, `FieldFactory::createUInt8Field`. -/
def createUInt8Field (name : String) (offset : Nat) (required : Bool)
    (desc : String) : FieldDefinition :=
  { name := name, offset := offset, length := 1, type := .UINT8,
    endianness := .NETWORK, required := required, description := desc,
    constraint := none, formatter := none }

/-- `src/parser/FieldDefinition.cpp`, `FieldFactory::createUInt16Field`. -/
def createUInt16Field (name : String) (offset : Nat) (endian : Endianness)
    (required : Bool) (desc : String) : FieldDefinition :=
  { name := name, offset := offset, length := 2, type := .UINT16,
    endianness := endian, required := required, description := desc,
    constraint := none, formatter := none }

/-- `src/parser/FieldDefinition.cpp`, `FieldFactory::createUInt32Field`. -/
def createUInt32Field (name : String) (offset : Nat) (endian : Endianness)
    (required : Bool) (desc : String) : FieldDefinition :=
  { name := name, offset := offset, length := 4, type := .UINT32,
    endianness := endian, required := required, description := desc,
    constraint := none, formatter := none }

/-- `src/parser/FieldDefinition.cpp`, `FieldFactory::createBytesField`. -/
def createBytesField (name : String) (offset length : Nat) (required : Bool)
    (desc : String) : FieldDefinition :=
  { name := name, offset := offset, length := length, type := .BYTES,
    endianness := .NETWORK, required := required, description := desc,
    constraint := none, formatter := none }

/-- `src/parser/FieldDefinition.cpp`, `FieldFactory::createIPv4AddressField`. -/
def createIPv4AddressField (name : String) (offset : Nat) (required : Bool)
    (desc : String) : FieldDefinition :=
  { name := name, offset := offset, length := 4, type := .IPV4_ADDRESS,
    endianness := .NETWORK, required := required, description := desc,
    constraint := none, formatter := none }

/-- `src/parser/ProtocolRegistry.cpp`, `BuiltinProtocols::createEthernetProtocol`. -/
def createEthernetProtocol : ProtocolDefinition :=
  { name := "ethernet", version := "2.0", description := "Ethernet II Frame",
    fields :=
      [createBytesField "destination_mac" 0 6 true "Destination MAC Address",
       createBytesField "source_mac" 6 6 true "Source MAC Address",
       createUInt16Field "ethertype" 12 .NETWORK true "EtherType"] }

/-- `src/parser/ProtocolRegistry.cpp`, `BuiltinProtocols::createIPv4Protocol`. -/
def createIPv4Protocol : ProtocolDefinition :=
  { name := "ipv4", version := "4.0", description := "Internet Protocol Version 4",
    fields :=
      [createUInt8Field "version" 0 true "IP Version",
       createUInt8Field "ihl" 0 true "Header Length",
       createUInt8Field "tos" 1 true "Type of Service",
       createUInt16Field "total_length" 2 .NETWORK true "Total Length",
       createUInt16Field "identification" 4 .NETWORK true "Identification",
       createUInt16Field "flags" 6 .NETWORK true "Flags",
       createUInt8Field "ttl" 8 true "Time to Live",
       createUInt8Field "protocol" 9 true "Protocol",
       createUInt16Field "checksum" 10 .NETWORK true "Header Checksum",
       createIPv4AddressField "source_ip" 12 true "Source IP Address",
       createIPv4AddressField "destination_ip" 16 true "Destination IP Address"] }

/-- `src/parser/ProtocolRegistry.cpp`, `BuiltinProtocols::createTCPProtocol`. -/
def createTCPProtocol : ProtocolDefinition :=
  { name := "tcp", version := "1.0", description := "Transmission Control Protocol",
    fields :=
      [createUInt16Field "source_port" 0 .NETWORK true "Source Port",
       createUInt16Field "destination_port" 2 .NETWORK true "Destination Port",
       createUInt32Field "sequence_number" 4 .NETWORK true "Sequence Number",
       createUInt32Field "acknowledgment_number" 8 .NETWORK true "Acknowledgment Number",
       createUInt8Field "data_offset" 12 true "Data Offset",
       createUInt8Field "flags" 13 true "Flags",
       createUInt16Field "window_size" 14 .NETWORK true "Window Size",
       createUInt16Field "checksum" 16 .NETWORK true "Checksum",
       createUInt16Field "urgent_pointer" 18 .NETWORK true "Urgent Pointer"] }

/-- `src/parser/ProtocolRegistry.cpp`, `BuiltinProtocols::createUDPProtocol`. -/
def createUDPProtocol : ProtocolDefinition :=
  { name := "udp", version := "1.0", description := "User Datagram Protocol",
    fields :=
      [createUInt16Field "source_port" 0 .NETWORK true "Source Port",
       createUInt16Field "destination_port" 2 .NETWORK true "Destination Port",
       createUInt16Field "length" 4 .NETWORK true "Length",
       createUInt16Field "checksum" 6 .NETWORK true "Checksum"] }

/-- `src/parser/ProtocolRegistry.cpp`, `BuiltinProtocols::createICMPProtocol`. -/
def createICMPProtocol : ProtocolDefinition :=
  { name := "icmp", version := "1.0", description := "Internet Control Message Protocol",
    fields :=
      [createUInt8Field "type" 0 true "Type",
       createUInt8Field "code" 1 true "Code",
       createUInt16Field "checksum" 2 .NETWORK true "Checksum",
       createUInt16Field "identifier" 4 .NETWORK true "Identifier",
       createUInt16Field "sequence_number" 6 .NETWORK true "Sequence Number"] }

/-- `include/parser/ProtocolRegistry.hpp`: the registry's protocol map and
usage counters (the factory map, timestamps and locks carry no modelled
behaviour). -/
structure ProtocolRegistryState where
  protocols : List (String × ProtocolDefinition)
  usageCount : List (String × Nat)

/-- The freshly constructed (empty) registry singleton. -/
def emptyRegistry : ProtocolRegistryState := { protocols := [], usageCount := [] }

/-- `src/parser/ProtocolRegistry.cpp`,
`ProtocolRegistry::initializeBuiltinProtocols` (lines 116-134): registers
exactly ethernet, ipv4, tcp, udp and icmp, then zeroes the usage counter of
every protocol in the map.  (`createIPv6Protocol`, `createARPProtocol` and the
other factory functions exist in the source but are not called here.) -/
def initializeBuiltinProtocols (r : ProtocolRegistryState) : ProtocolRegistryState :=
  let ps :=
    upsert (upsert (upsert (upsert (upsert r.protocols
      "ethernet" createEthernetProtocol)
      "ipv4" createIPv4Protocol)
      "tcp" createTCPProtocol)
      "udp" createUDPProtocol)
      "icmp" createICMPProtocol
  { protocols := ps,
    usageCount := ps.foldl (fun m kv => upsert m kv.1 0) r.usageCount }

/-- `src/parser/ProtocolRegistry.cpp`, `ProtocolRegistry::loadBuiltinProtocols`:
takes the write lock and delegates to `initializeBuiltinProtocols`. -/
def loadBuiltinProtocols (r : ProtocolRegistryState) : ProtocolRegistryState :=
  initializeBuiltinProtocols r

/-- `src/parser/ProtocolRegistry.cpp`, `ProtocolRegistry::hasProtocol`. -/
def hasProtocol (r : ProtocolRegistryState) (name : String) : Bool :=
  (r.protocols.lookup name).isSome

/-- Splitting a character list at a delimiter, as `std::getline(ss, token, c)`
tokenizes (every delimiter ends a token; claims only exercise well-formed
dotted quads, where this agrees with `getline`). -/
def splitOnChar (c : Char) : List Char → List (List Char)
  | [] => [[]]
  | x :: xs =>
    if x = c then [] :: splitOnChar c xs
    else match splitOnChar c xs with
      | [] => [[x]]
      | t :: ts => (x :: t) :: ts

/-- `std::stoi` on the plain digit strings the modelled inputs contain. -/
def stoiNat (cs : List Char) : Nat := cs.foldl (fun n c => n * 10 + (c.toNat - 48)) 0

/-- `src/PacketFilter.cpp`, `PacketFilter::parseIPAddress`: split on '.' and
narrow each token to `uint8_t`. -/
def parseIPAddressChars (cs : List Char) : List Nat :=
  (splitOnChar '.' cs).map (fun t => stoiNat t % 256)

/-- The 32-bit address assembled from four bytes,
`(b0 << 24) | (b1 << 16) | (b2 << 8) | b3` (out-of-range indices read past the
caller-supplied vector in the C++; the filter always passes four bytes). -/
def ipv4ToUInt32 (bytes : List Nat) : Nat :=
  (byteAt bytes 0 <<< 24) ||| (byteAt bytes 1 <<< 16) ||| (byteAt bytes 2 <<< 8) |||
    byteAt bytes 3

/-- The mask computation of `PacketFilter::isIPInRange`:
`(0xFFFFFFFF << (32 - prefixLen)) & 0xFFFFFFFF` on a 32-bit unsigned value.
For `prefixLen = 0` the C++ shift count is 32, which is undefined behaviour;
x86 masks the count to its low five bits, so the executed shift count is
`(32 - prefixLen) % 32` (`cidrShiftDefined` flags the undefined case). -/
def cidrMask (prefixLen : Nat) : Nat :=
  (0xFFFFFFFF <<< ((32 - prefixLen) % 32)) % 2 ^ 32

/-- Whether the shift in `cidrMask` has defined behaviour in C++
(count strictly below the 32-bit operand width). -/
def cidrShiftDefined (prefixLen : Nat) : Bool := 32 - prefixLen < 32

/-- `src/PacketFilter.cpp`, `PacketFilter::isIPInRange` (lines 342-360), with
the undefined `/0` shift resolved to the x86-executed count as in `cidrMask`. -/
def isIPInRange (ip : List Nat) (range : String) : Bool :=
  let cs := range.toList
  if cs.any (· == '/') then
    let networkStr := cs.takeWhile (· ≠ '/')
    let prefixLen := stoiNat ((cs.dropWhile (· ≠ '/')).drop 1)
    let network := parseIPAddressChars networkStr
    if network.length ≠ 4 then false
    else
      let mask := cidrMask prefixLen
      (ipv4ToUInt32 network &&& mask) == (ipv4ToUInt32 ip &&& mask)
  else ip == parseIPAddressChars cs

/-- `PacketFilter::isIPInRange` with the undefined shift made explicit:
`none` exactly when the mask computation shifts a 32-bit value by 32 or more
(CIDR prefix 0), which is undefined behaviour in C++. -/
def isIPInRangeChecked (ip : List Nat) (range : String) : Option Bool :=
  let cs := range.toList
  if cs.any (· == '/') then
    let networkStr := cs.takeWhile (· ≠ '/')
    let prefixLen := stoiNat ((cs.dropWhile (· ≠ '/')).drop 1)
    let network := parseIPAddressChars networkStr
    if network.length ≠ 4 then some false
    else if !cidrShiftDefined prefixLen then none
    else
      let mask := cidrMask prefixLen
      some ((ipv4ToUInt32 network &&& mask) == (ipv4ToUInt32 ip &&& mask))
  else some (ip == parseIPAddressChars cs)

/-- `include/beatrice/Error.hpp`, `enum class ErrorCode`. -/
inductive ErrorCode where
  | SUCCESS
  | INVALID_ARGUMENT
  | INITIALIZATION_FAILED
  | RESOURCE_UNAVAILABLE
  | PERMISSION_DENIED
  | TIMEOUT
  | NETWORK_ERROR
  | PLUGIN_LOAD_FAILED
  | PLUGIN_EXECUTION_FAILED
  | BACKEND_ERROR
  | INTERNAL_ERROR
  | NOT_IMPLEMENTED
  | CLEANUP_FAILED
  | UNKNOWN_ERROR
deriving DecidableEq

/-- `Result<void>`: success or an error code (messages carry no modelled
behaviour). -/
inductive BResult where
  | ok
  | err (code : ErrorCode)
deriving DecidableEq

/-- The control-state flags of `AF_XDPBackend`
(`src/AF_XDPBackend.cpp` constructor): socket, rings and UMEM pointers are
resources whose presence never gates the modelled transitions. -/
structure XdpBackendState where
  initialized : Bool
  running : Bool
  xdpProgramLoaded : Bool
deriving DecidableEq

/-- A freshly constructed `AF_XDPBackend`. -/
def freshXdpBackend : XdpBackendState :=
  { initialized := false, running := false, xdpProgramLoaded := false }

/-- `src/AF_XDPBackend.cpp`, `AF_XDPBackend::initialize`: validates the
interface (an environment input) and sets the initialized flag; socket binding
is deferred ("stub mode").  No filter-program state is consulted or changed. -/
def xdpInitialize (interfaceValid : Bool) (st : XdpBackendState) :
    BResult × XdpBackendState :=
  if st.initialized then (.ok, st)
  else if !interfaceValid then (.err .INVALID_ARGUMENT, st)
  else (.ok, { st with initialized := true })

/-- `src/AF_XDPBackend.cpp`, `AF_XDPBackend::start` (lines 104-129): requires
only the initialized flag, spawns the processing thread (the running flag) and
reports success.  It does not consult the filter-program state. -/
def xdpStart (st : XdpBackendState) : BResult × XdpBackendState :=
  if !st.initialized then (.err .INITIALIZATION_FAILED, st)
  else if st.running then (.ok, st)
  else (.ok, { st with running := true })

/-- The environment consulted by `AF_XDPBackend::bindToInterface`: interface
index lookup, the loader's attachment state, program info availability, the
BPF filesystem, XDP support of the interface, whether the interface name
starts with "veth", and the kernel's answer to `bind` per queue id. -/
structure XdpBindEnv where
  interfaceIndex : Option Nat
  programAttached : Bool
  programInfoAvailable : Bool
  bpfFsMounted : Bool
  interfaceSupportsXdp : Bool
  isVeth : Bool
  bindSucceedsOnQueue : Nat → Bool

/-- `src/AF_XDPBackend.cpp`, `AF_XDPBackend::bindToInterface` (lines 745-900):
fails without an interface index, without an attached filter program, without
program info, or without the BPF filesystem; requires XDP support unless the
interface is a veth; tries queue ids 0-3; veth interfaces fall back to generic
mode on bind failure.  (The pin-path and xdp-mode probes only log.) -/
def bindToInterface (env : XdpBindEnv) : Bool :=
  match env.interfaceIndex with
  | none => false
  | some _ =>
    if !env.programAttached then false
    else if !env.programInfoAvailable then false
    else if !env.bpfFsMounted then false
    else if !env.interfaceSupportsXdp && !env.isVeth then false
    else if [0, 1, 2, 3].any env.bindSucceedsOnQueue then true
    else if env.isVeth then true
    else false

/-- The zero-copy/DMA state shared by the backends
(`AF_XDPBackend`/`AF_PacketBackend` members `running_`, `dmaAccessEnabled_`,
`dmaDevice_`, `dmaBufferSize_`, `dmaBuffers_`, `dmaBufferCount_`, `dmaFd_`). -/
structure DmaState where
  running : Bool
  dmaAccessEnabled : Bool
  dmaDevice : String
  dmaBufferSize : Nat
  dmaAllocated : Bool
  dmaBufferCount : Nat
  dmaFdOpen : Bool
deriving DecidableEq

/-- `src/AF_XDPBackend.cpp`, `AF_XDPBackend::enableDMAAccess` (identical
control flow in `src/AF_PacketBackend.cpp`): refuses while running. -/
def enableDMAAccess (st : DmaState) (enabled : Bool) (device : String) :
    BResult × DmaState :=
  if st.running then (.err .INVALID_ARGUMENT, st)
  else if enabled && !(device == "") then
    (.ok, { st with dmaDevice := device, dmaAccessEnabled := true })
  else (.ok, { st with dmaAccessEnabled := false, dmaDevice := "" })

/-- `src/AF_XDPBackend.cpp`, `AF_XDPBackend::setDMABufferSize`: refuses while
running; size 0 selects the 2048-byte fallback. -/
def setDMABufferSize (st : DmaState) (size : Nat) : BResult × DmaState :=
  if st.running then (.err .INVALID_ARGUMENT, st)
  else if size = 0 then (.ok, { st with dmaBufferSize := 2048 })
  else (.ok, { st with dmaBufferSize := size })

/-- The environment of `allocateDMABuffers`: whether `open` on the DMA device
and the `mmap` succeed. -/
structure DmaEnv where
  openOk : Bool
  mmapOk : Bool

/-- `src/AF_XDPBackend.cpp`, `AF_XDPBackend::allocateDMABuffers`
(lines 1050-1095; same structure in the other backends): refuses when DMA
access is disabled or buffers exist, opens the device and maps the buffers.
It performs no check of the running flag. -/
def allocateDMABuffers (env : DmaEnv) (st : DmaState) (count : Nat) :
    BResult × DmaState :=
  if !st.dmaAccessEnabled then (.err .INVALID_ARGUMENT, st)
  else if st.dmaAllocated then (.err .INVALID_ARGUMENT, st)
  else if !env.openOk then (.err .INITIALIZATION_FAILED, st)
  else if !env.mmapOk then (.err .INITIALIZATION_FAILED, { st with dmaFdOpen := false })
  else (.ok, { st with dmaAllocated := true, dmaBufferCount := count, dmaFdOpen := true })

/-- `src/AF_XDPBackend.cpp`, `AF_XDPBackend::freeDMABuffers`: succeeds
immediately when nothing is allocated, otherwise unmaps (failures only
logged), closes the device and clears the set.  It performs no check of the
running flag. -/
def freeDMABuffers (st : DmaState) : BResult × DmaState :=
  if !st.dmaAllocated then (.ok, st)
  else (.ok, { st with dmaAllocated := false, dmaBufferCount := 0, dmaFdOpen := false })

/-- The spec's words for little-endian decoding: the first byte of the string
is least significant. -/
def littleEndianValue (bs : List Nat) : Nat := bs.foldr (fun b acc => b + 256 * acc) 0

/-- The spec's words for big-endian (network-order) decoding: the first byte
of the string is most significant. -/
def bigEndianValue (bs : List Nat) : Nat := bs.foldl (fun acc b => 256 * acc + b) 0

/-- A field whose `size_t` end `offset + length` wraps around: the sum is
`2 ^ 64 + 1`, which truncates to 1 (see C4). -/
def overflowField : FieldDefinition :=
  { name := "wrap", offset := U64 - 1, length := 2, type := .BYTES,
    endianness := .NETWORK, required := true, description := "", constraint := none,
    formatter := none }

/-- An `AF_XDPBackend` that completed `initialize` but has no filter program
loaded or attached. -/
def initializedXdpBackend : XdpBackendState :=
  { initialized := true, running := false, xdpProgramLoaded := false }

/-- A bind environment whose only defect is that no filter program is
attached to the interface. -/
def noAttachEnv : XdpBindEnv :=
  { interfaceIndex := some 2, programAttached := false, programInfoAvailable := true,
    bpfFsMounted := true, interfaceSupportsXdp := true, isVeth := false,
    bindSucceedsOnQueue := fun _ => true }

/-- A backend in the Running state with DMA access enabled and no buffers
allocated. -/
def runningDmaBackend : DmaState :=
  { running := true, dmaAccessEnabled := true, dmaDevice := "/dev/dma0",
    dmaBufferSize := 2048, dmaAllocated := false, dmaBufferCount := 0,
    dmaFdOpen := false }

/-- An environment in which the DMA device opens and the mapping succeeds. -/
def okDmaEnv : DmaEnv := { openOk := true, mmapOk := true }

/-! ## Association-map lemmas -/

theorem lookup_cons_self {α : Type} (k : String) (v : α) (rest : List (String × α)) :
    ((k, v) :: rest).lookup k = some v := by
  simp [List.lookup]

theorem lookup_cons_ne {α : Type} (k k₁ : String) (v₁ : α) (rest : List (String × α))
    (h : k ≠ k₁) : ((k₁, v₁) :: rest).lookup k = rest.lookup k := by
  simp only [List.lookup]
  rw [show (k == k₁) = false from beq_eq_false_iff_ne.mpr h]

theorem lookup_upsert_self {α : Type} (m : List (String × α)) (k : String) (v : α) :
    (upsert m k v).lookup k = some v := by
  induction m with
  | nil => simp [upsert, List.lookup]
  | cons p rest ih =>
    obtain ⟨k₁, v₁⟩ := p
    by_cases h : k₁ = k
    · simp only [upsert, if_pos h]
      exact lookup_cons_self k v rest
    · simp only [upsert, if_neg h]
      rw [lookup_cons_ne k k₁ v₁ _ (fun hk => h hk.symm)]
      exact ih

theorem lookup_upsert_isSome {α : Type} (m : List (String × α)) (k k' : String) (v' : α)
    (h : (m.lookup k).isSome = true) : ((upsert m k' v').lookup k).isSome = true := by
  induction m with
  | nil => simp [List.lookup] at h
  | cons p rest ih =>
    obtain ⟨k₁, v₁⟩ := p
    by_cases hpk : k₁ = k'
    · simp only [upsert, if_pos hpk]
      subst hpk
      by_cases hk : k = k₁
      · subst hk
        rw [lookup_cons_self]
        rfl
      · rw [lookup_cons_ne k k₁ v' _ hk]
        rw [lookup_cons_ne k k₁ v₁ _ hk] at h
        exact h
    · simp only [upsert, if_neg hpk]
      by_cases hk : k = k₁
      · subst hk
        rw [lookup_cons_self]
        rfl
      · rw [lookup_cons_ne k k₁ v₁ _ hk]
        rw [lookup_cons_ne k k₁ v₁ _ hk] at h
        exact ih h

theorem lookup_valid_of_good (m : List (String × FieldValue))
    (hm : ∀ q ∈ m, q.2.valid = true) (k : String) (fv : FieldValue)
    (h : m.lookup k = some fv) : fv.valid = true := by
  induction m with
  | nil => simp [List.lookup] at h
  | cons p rest ih =>
    obtain ⟨k₁, v₁⟩ := p
    by_cases hk : k = k₁
    · subst hk
      rw [lookup_cons_self] at h
      cases h
      exact hm (k, fv) (List.mem_cons_self _ _)
    · rw [lookup_cons_ne k k₁ v₁ _ hk] at h
      exact ih (fun q hq => hm q (List.mem_cons_of_mem _ hq)) h

theorem good_upsert (m : List (String × FieldValue)) (k : String) (v : FieldValue)
    (hm : ∀ q ∈ m, q.2.valid = true) (hv : v.valid = true) :
    ∀ q ∈ upsert m k v, q.2.valid = true := by
  induction m with
  | nil =>
    intro q hq
    simp only [upsert, List.mem_singleton] at hq
    subst hq
    exact hv
  | cons p rest ih =>
    intro q hq
    by_cases hpk : p.1 = k
    · simp only [upsert, if_pos hpk, List.mem_cons] at hq
      rcases hq with rfl | hq
      · exact hv
      · exact hm q (List.mem_cons_of_mem _ hq)
    · simp only [upsert, if_neg hpk, List.mem_cons] at hq
      rcases hq with rfl | hq
      · exact hm q (List.mem_cons_self _ _)
      · exact ih (fun r hr => hm r (List.mem_cons_of_mem _ hr)) q hq

/-! ## Field-loop invariants of `parsePacketInternal` -/

theorem extractField_valid_of_inBounds (packet : List Nat) (f : FieldDefinition)
    (h : ¬ wrap64 (f.offset + f.length) > packet.length) :
    (extractField packet f).valid = true := by
  obtain ⟨name, o, l, ty, e, rq, d, c, fmt⟩ := f
  simp only [extractField, if_neg h]
  cases ty <;> rfl

theorem parseFieldStep_parsedBytes_le (cfg : ParserConfig) (packet : List Nat)
    (acc : ParseAcc) (f : FieldDefinition) (h : acc.parsedBytes ≤ packet.length) :
    (parseFieldStep cfg packet acc f).parsedBytes ≤ packet.length := by
  unfold parseFieldStep
  split
  · exact h
  · next hguard => exact max_le h (Nat.le_of_not_lt hguard)

theorem foldl_parsedBytes_le (cfg : ParserConfig) (packet : List Nat)
    (l : List FieldDefinition) (acc : ParseAcc) (h : acc.parsedBytes ≤ packet.length) :
    (l.foldl (parseFieldStep cfg packet) acc).parsedBytes ≤ packet.length := by
  induction l generalizing acc with
  | nil => exact h
  | cons f l ih => exact ih _ (parseFieldStep_parsedBytes_le cfg packet acc f h)

theorem parseFieldStep_good (cfg : ParserConfig) (packet : List Nat)
    (acc : ParseAcc) (f : FieldDefinition)
    (hg : ∀ q ∈ acc.fields, q.2.valid = true) :
    ∀ q ∈ (parseFieldStep cfg packet acc f).fields, q.2.valid = true := by
  unfold parseFieldStep
  split
  · exact hg
  · next hguard =>
    exact good_upsert _ _ _ hg (extractField_valid_of_inBounds packet f hguard)

theorem foldl_good (cfg : ParserConfig) (packet : List Nat)
    (l : List FieldDefinition) (acc : ParseAcc)
    (hg : ∀ q ∈ acc.fields, q.2.valid = true) :
    ∀ q ∈ (l.foldl (parseFieldStep cfg packet) acc).fields, q.2.valid = true := by
  induction l generalizing acc with
  | nil => exact hg
  | cons f l ih => exact ih _ (parseFieldStep_good cfg packet acc f hg)

theorem parseFieldStep_lookup_isSome (cfg : ParserConfig) (packet : List Nat)
    (acc : ParseAcc) (f : FieldDefinition) (k : String)
    (h : ((acc.fields).lookup k).isSome = true) :
    (((parseFieldStep cfg packet acc f).fields).lookup k).isSome = true := by
  unfold parseFieldStep
  split
  · exact h
  · exact lookup_upsert_isSome _ _ _ _ h

theorem foldl_lookup_isSome (cfg : ParserConfig) (packet : List Nat)
    (l : List FieldDefinition) (acc : ParseAcc) (k : String)
    (h : ((acc.fields).lookup k).isSome = true) :
    (((l.foldl (parseFieldStep cfg packet) acc).fields).lookup k).isSome = true := by
  induction l generalizing acc with
  | nil => exact h
  | cons f l ih => exact ih _ (parseFieldStep_lookup_isSome cfg packet acc f k h)

theorem foldl_lookup_mem_isSome (cfg : ParserConfig) (packet : List Nat)
    (l : List FieldDefinition) (acc : ParseAcc) (f : FieldDefinition) (hf : f ∈ l)
    (hguard : wrap64 (f.offset + f.length) ≤ packet.length) :
    (((l.foldl (parseFieldStep cfg packet) acc).fields).lookup f.name).isSome = true := by
  induction l generalizing acc with
  | nil => cases hf
  | cons g l ih =>
    rcases List.mem_cons.mp hf with rfl | hf'
    · refine foldl_lookup_isSome cfg packet l _ f.name ?_
      unfold parseFieldStep
      rw [if_neg (Nat.not_lt.mpr hguard)]
      simp only
      rw [lookup_upsert_self]
      rfl
    · exact ih _ hf'

/-! ## The maximum-field-end computation of `getTotalLength` -/

theorem maxEndStep_le (acc : Nat × Nat) (f : FieldDefinition) :
    wrap64 (acc.1 + acc.2) ≤ wrap64 ((maxEndStep acc f).1 + (maxEndStep acc f).2) := by
  unfold maxEndStep
  split
  · next h => exact Nat.le_of_lt h
  · exact Nat.le_refl _

theorem maxEndStep_self_le (acc : Nat × Nat) (f : FieldDefinition) :
    wrap64 (f.offset + f.length) ≤ wrap64 ((maxEndStep acc f).1 + (maxEndStep acc f).2) := by
  unfold maxEndStep
  split
  · exact Nat.le_refl _
  · next h => exact Nat.le_of_not_lt h

theorem foldl_maxEnd_mono (l : List FieldDefinition) (acc : Nat × Nat) :
    wrap64 (acc.1 + acc.2) ≤
      wrap64 ((l.foldl maxEndStep acc).1 + (l.foldl maxEndStep acc).2) := by
  induction l generalizing acc with
  | nil => exact Nat.le_refl _
  | cons f l ih => exact le_trans (maxEndStep_le acc f) (ih (maxEndStep acc f))

theorem foldl_maxEnd_mem_le (l : List FieldDefinition) (acc : Nat × Nat)
    (f : FieldDefinition) (hf : f ∈ l) :
    wrap64 (f.offset + f.length) ≤
      wrap64 ((l.foldl maxEndStep acc).1 + (l.foldl maxEndStep acc).2) := by
  induction l generalizing acc with
  | nil => cases hf
  | cons g l ih =>
    rcases List.mem_cons.mp hf with rfl | hf'
    · exact le_trans (maxEndStep_self_le acc f) (foldl_maxEnd_mono l (maxEndStep acc f))
    · exact ih (maxEndStep acc g) hf'

theorem fieldEnd_le_totalLength (p : ProtocolDefinition) (f : FieldDefinition)
    (hf : f ∈ p.fields) : wrap64 (f.offset + f.length) ≤ p.getTotalLength := by
  unfold ProtocolDefinition.getTotalLength
  rw [if_neg (by simp [List.isEmpty_iff]; exact List.ne_nil_of_mem hf)]
  exact foldl_maxEnd_mem_le p.fields (0, 0) f hf

/-- C1: for every input buffer and protocol definition, the `ParseResult`
returned by `parsePacket` satisfies `parsedBytes ≤ packetLength`, and for
every field of the protocol marked required, either that field is present in
the result's field map with `valid = true` or the result's status is not
`SUCCESS`. -/
theorem parsePacket_invariants (cfg : ParserConfig) (packet : List Nat)
    (protocol : ProtocolDefinition) :
    (parsePacket cfg packet protocol).parsedBytes ≤
      (parsePacket cfg packet protocol).packetLength ∧
    ∀ f ∈ protocol.fields, f.required = true →
      (∃ fv, (parsePacket cfg packet protocol).fields.lookup f.name = some fv ∧
        fv.valid = true) ∨
      (parsePacket cfg packet protocol).status ≠ ParseStatus.SUCCESS := by
  unfold parsePacket parsePacketInternal
  by_cases hshort : packet.length < protocol.getTotalLength
  · rw [if_pos hshort]
    exact ⟨Nat.zero_le _, fun f hf hreq =>
      Or.inr (fun h => ParseStatus.noConfusion h)⟩
  · rw [if_neg hshort]
    have hlen : protocol.getTotalLength ≤ packet.length := Nat.le_of_not_lt hshort
    unfold finishParse
    simp only [validateChecksum, Bool.not_true, Bool.and_false, Bool.false_eq_true,
      if_false]
    constructor
    · exact foldl_parsedBytes_le cfg packet protocol.fields ⟨[], [], 0⟩ (Nat.zero_le _)
    · intro f hf hreq
      left
      have hg : wrap64 (f.offset + f.length) ≤ packet.length :=
        le_trans (fieldEnd_le_totalLength protocol f hf) hlen
      have hs := foldl_lookup_mem_isSome cfg packet protocol.fields ⟨[], [], 0⟩ f hf hg
      obtain ⟨fv, hfv⟩ := Option.isSome_iff_exists.mp hs
      refine ⟨fv, hfv, ?_⟩
      exact lookup_valid_of_good _
        (foldl_good cfg packet protocol.fields ⟨[], [], 0⟩ (fun q hq => by cases hq))
        f.name fv hfv

/-- Witness for C1 at a concrete input: an 8-byte buffer parsed with the
built-in UDP protocol, checked at its required `source_port` field. -/
theorem parsePacket_invariants_witness :
    (parsePacket defaultParserConfig [0, 80, 0, 81, 0, 12, 0, 0]
        createUDPProtocol).parsedBytes ≤
      (parsePacket defaultParserConfig [0, 80, 0, 81, 0, 12, 0, 0]
        createUDPProtocol).packetLength ∧
    ((∃ fv, (parsePacket defaultParserConfig [0, 80, 0, 81, 0, 12, 0, 0]
        createUDPProtocol).fields.lookup "source_port" = some fv ∧ fv.valid = true) ∨
      (parsePacket defaultParserConfig [0, 80, 0, 81, 0, 12, 0, 0]
        createUDPProtocol).status ≠ ParseStatus.SUCCESS) :=
  ⟨(parsePacket_invariants defaultParserConfig [0, 80, 0, 81, 0, 12, 0, 0]
      createUDPProtocol).1,
   (parsePacket_invariants defaultParserConfig [0, 80, 0, 81, 0, 12, 0, 0]
      createUDPProtocol).2
     (createUInt16Field "source_port" 0 .NETWORK true "Source Port")
     (List.Mem.head _) rfl⟩

/-- C2: for every protocol definition and every buffer strictly shorter than
the protocol's `totalLength` (the maximum of `offset + length` over its
fields, in `size_t` arithmetic), `parsePacket` returns status
`PACKET_TOO_SHORT` and an empty field map. -/
theorem parsePacket_too_short (cfg : ParserConfig) (packet : List Nat)
    (protocol : ProtocolDefinition)
    (h : packet.length < protocol.getTotalLength) :
    (parsePacket cfg packet protocol).status = ParseStatus.PACKET_TOO_SHORT ∧
    (parsePacket cfg packet protocol).fields = [] := by
  unfold parsePacket parsePacketInternal
  rw [if_pos h]
  exact ⟨rfl, rfl⟩

/-- Witness for C2: a 1-byte buffer against the built-in UDP protocol
(whose `totalLength` is 8). -/
theorem parsePacket_too_short_witness :
    (parsePacket defaultParserConfig [1] createUDPProtocol).status =
      ParseStatus.PACKET_TOO_SHORT ∧
    (parsePacket defaultParserConfig [1] createUDPProtocol).fields = [] :=
  parsePacket_too_short defaultParserConfig [1] createUDPProtocol (by decide)

/-! ## Endianness: the extraction refinement -/

theorem littleEndianValue_append (bs : List Nat) (b : Nat) :
    littleEndianValue (bs ++ [b]) = littleEndianValue bs + b * 256 ^ bs.length := by
  induction bs with
  | nil => simp [littleEndianValue]
  | cons a bs ih =>
    simp only [littleEndianValue, List.cons_append, List.foldr_cons] at *
    rw [ih]
    simp only [List.length_cons]
    ring

theorem littleEndianValue_lt (bs : List Nat) (h : ∀ b ∈ bs, b < 256) :
    littleEndianValue bs < 256 ^ bs.length := by
  induction bs with
  | nil => exact Nat.zero_lt_one
  | cons a bs ih =>
    have ha : a < 256 := h a (List.mem_cons_self _ _)
    have hv : littleEndianValue bs < 256 ^ bs.length :=
      ih (fun b hb => h b (List.mem_cons_of_mem _ hb))
    show a + 256 * littleEndianValue bs < 256 ^ (bs.length + 1)
    rw [pow_succ]
    have h1 : a + 256 * littleEndianValue bs < 256 * (littleEndianValue bs + 1) := by omega
    exact lt_of_lt_of_le h1 (by rw [Nat.mul_comm]; exact Nat.mul_le_mul_right 256 hv)

theorem bigEndianValue_foldl (bs : List Nat) (a : Nat) :
    bs.foldl (fun acc b => 256 * acc + b) a = a * 256 ^ bs.length + bigEndianValue bs := by
  induction bs generalizing a with
  | nil => simp [bigEndianValue]
  | cons x bs ih =>
    show bs.foldl _ (256 * a + x) = a * 256 ^ (bs.length + 1) + bigEndianValue (x :: bs)
    rw [ih (256 * a + x)]
    show (256 * a + x) * 256 ^ bs.length + bigEndianValue bs =
      a * 256 ^ (bs.length + 1) + bs.foldl (fun acc b => 256 * acc + b) (256 * 0 + x)
    rw [ih (256 * 0 + x), pow_succ]
    ring

theorem bigEndianValue_cons (b : Nat) (bs : List Nat) :
    bigEndianValue (b :: bs) = b * 256 ^ bs.length + bigEndianValue bs := by
  show bs.foldl (fun acc x => 256 * acc + x) (256 * 0 + b) =
    b * 256 ^ bs.length + bigEndianValue bs
  rw [bigEndianValue_foldl]
  ring_nf

theorem bigEndianValue_lt (bs : List Nat) (h : ∀ b ∈ bs, b < 256) :
    bigEndianValue bs < 256 ^ bs.length := by
  induction bs with
  | nil => exact Nat.zero_lt_one
  | cons a bs ih =>
    have ha : a < 256 := h a (List.mem_cons_self _ _)
    have hv : bigEndianValue bs < 256 ^ bs.length :=
      ih (fun b hb => h b (List.mem_cons_of_mem _ hb))
    rw [bigEndianValue_cons]
    show a * 256 ^ bs.length + bigEndianValue bs < 256 ^ (bs.length + 1)
    rw [pow_succ]
    nlinarith [pow_pos (show 0 < 256 by norm_num) bs.length]

theorem lor_shift_eq_add (v b n : Nat) (hv : v < 2 ^ n) :
    v ||| (b <<< n) = v + b * 2 ^ n := by
  rw [Nat.shiftLeft_eq]
  calc v ||| b * 2 ^ n = 2 ^ n * b ||| v := by rw [Nat.lor_comm, Nat.mul_comm]
    _ = 2 ^ n * b + v := (Nat.mul_add_lt_is_or hv b).symm
    _ = v + b * 2 ^ n := by ring

theorem pow256_eq_pow2 (l : Nat) : (256 : Nat) ^ l = 2 ^ (8 * l) := by
  rw [show (256 : Nat) = 2 ^ 8 from rfl, ← pow_mul]

theorem sliceBytes_length (packet : List Nat) (o l : Nat) (h : o + l ≤ packet.length) :
    (sliceBytes packet o l).length = l := by
  simp only [sliceBytes, List.length_take, List.length_drop]
  omega

theorem sliceBytes_mem_lt (packet : List Nat) (o l : Nat)
    (hbytes : ∀ b ∈ packet, b < 256) : ∀ b ∈ sliceBytes packet o l, b < 256 :=
  fun b hb => hbytes b (List.drop_subset o packet (List.take_subset l _ hb))

theorem extractLE_succ (w : Nat) (packet : List Nat) (o l : Nat) :
    extractLE w packet o (l + 1) =
      ((extractLE w packet o l) ||| (byteAt packet (o + l) <<< (8 * l))) % 2 ^ w := by
  unfold extractLE
  rw [List.range_succ, List.foldl_append]
  rfl

theorem sliceBytes_succ (packet : List Nat) (o l : Nat) (h : o + l < packet.length) :
    sliceBytes packet o (l + 1) = sliceBytes packet o l ++ [byteAt packet (o + l)] := by
  unfold sliceBytes
  rw [List.take_succ, List.getElem?_drop]
  rw [List.getElem?_eq_getElem h]
  rw [byteAt, List.getD_eq_getElem packet 0 h]
  rfl

theorem extractLE_eq_littleEndianValue (w : Nat) (packet : List Nat)
    (hbytes : ∀ b ∈ packet, b < 256) (o : Nat) :
    ∀ l, o + l ≤ packet.length → 8 * l ≤ w →
      extractLE w packet o l = littleEndianValue (sliceBytes packet o l) := by
  intro l
  induction l with
  | zero => intro _ _; rfl
  | succ l ih =>
    intro hb hw
    have hlt : o + l < packet.length := by omega
    rw [extractLE_succ, ih (by omega) (by omega), sliceBytes_succ packet o l hlt,
      littleEndianValue_append, sliceBytes_length packet o l (by omega)]
    have hvlt : littleEndianValue (sliceBytes packet o l) < 2 ^ (8 * l) := by
      have := littleEndianValue_lt (sliceBytes packet o l)
        (sliceBytes_mem_lt packet o l hbytes)
      rwa [sliceBytes_length packet o l (by omega), pow256_eq_pow2] at this
    rw [lor_shift_eq_add _ _ _ hvlt, pow256_eq_pow2]
    have hbyte : byteAt packet (o + l) < 256 := by
      rw [byteAt, List.getD_eq_getElem packet 0 hlt]
      exact hbytes _ (List.getElem_mem hlt)
    refine Nat.mod_eq_of_lt
      (lt_of_lt_of_le ?_ (Nat.pow_le_pow_right (show 0 < 2 by norm_num) hw))
    calc littleEndianValue (sliceBytes packet o l) + byteAt packet (o + l) * 2 ^ (8 * l)
        < 2 ^ (8 * l) + 255 * 2 ^ (8 * l) := by
          have : byteAt packet (o + l) * 2 ^ (8 * l) ≤ 255 * 2 ^ (8 * l) :=
            Nat.mul_le_mul_right _ (by omega)
          omega
      _ = 2 ^ 8 * 2 ^ (8 * l) := by ring
      _ = 2 ^ (8 * (l + 1)) := by rw [← pow_add]; ring_nf

theorem extractBE_succ (w : Nat) (packet : List Nat) (o l : Nat) :
    extractBE w packet o (l + 1) =
      ((extractBE w packet (o + 1) l) ||| (byteAt packet o <<< (8 * l))) % 2 ^ w := by
  unfold extractBE
  rw [List.range_succ, List.foldl_append]
  have hbody :
      (fun v i => (v ||| (byteAt packet (o + (l + 1) - 1 - i) <<< (8 * i))) % 2 ^ w) =
      (fun v i => (v ||| (byteAt packet (o + 1 + l - 1 - i) <<< (8 * i))) % 2 ^ w) := by
    funext v i
    have : o + (l + 1) - 1 - i = o + 1 + l - 1 - i := by omega
    rw [this]
  rw [hbody]
  show (_ ||| (byteAt packet (o + 1 + l - 1 - l) <<< (8 * l))) % 2 ^ w = _
  have : o + 1 + l - 1 - l = o := by omega
  rw [this]

theorem extractBE_eq_bigEndianValue (w : Nat) (packet : List Nat)
    (hbytes : ∀ b ∈ packet, b < 256) :
    ∀ l o, o + l ≤ packet.length → 8 * l ≤ w →
      extractBE w packet o l = bigEndianValue (sliceBytes packet o l) := by
  intro l
  induction l with
  | zero => intro o _ _; rfl
  | succ l ih =>
    intro o hb hw
    have ho : o < packet.length := by omega
    have hslice : sliceBytes packet o (l + 1) =
        byteAt packet o :: sliceBytes packet (o + 1) l := by
      unfold sliceBytes
      rw [List.drop_eq_getElem_cons ho, byteAt, List.getD_eq_getElem packet 0 ho]
      rfl
    rw [extractBE_succ, ih (o + 1) (by omega) (by omega), hslice, bigEndianValue_cons,
      sliceBytes_length packet (o + 1) l (by omega)]
    have hvlt : bigEndianValue (sliceBytes packet (o + 1) l) < 2 ^ (8 * l) := by
      have := bigEndianValue_lt (sliceBytes packet (o + 1) l)
        (sliceBytes_mem_lt packet (o + 1) l hbytes)
      rwa [sliceBytes_length packet (o + 1) l (by omega), pow256_eq_pow2] at this
    rw [lor_shift_eq_add _ _ _ hvlt]
    have hbyte : byteAt packet o < 256 := by
      rw [byteAt, List.getD_eq_getElem packet 0 ho]
      exact hbytes _ (List.getElem_mem ho)
    have hmod : bigEndianValue (sliceBytes packet (o + 1) l) + byteAt packet o * 2 ^ (8 * l)
        < 2 ^ (8 * (l + 1)) := by
      have h1 : byteAt packet o * 2 ^ (8 * l) ≤ 255 * 2 ^ (8 * l) :=
        Nat.mul_le_mul_right _ (by omega)
      have h2 : (2 : Nat) ^ (8 * (l + 1)) = 2 ^ 8 * 2 ^ (8 * l) := by
        rw [← pow_add]; ring_nf
      omega
    rw [Nat.mod_eq_of_lt
      (lt_of_lt_of_le hmod (Nat.pow_le_pow_right (show 0 < 2 by norm_num) hw))]
    rw [pow256_eq_pow2]
    ring

/-- C3 (amended): for every in-bounds extraction on byte-valued buffers,
`NETWORK`, `BIG` and also `HOST` decode big-endian (the source branches on
`LITTLE` only, so `HOST` does not follow the platform byte order), while
`LITTLE` decodes little-endian. -/
theorem extractValue_endianness (w : Nat) (packet : List Nat) (o l : Nat)
    (hbytes : ∀ b ∈ packet, b < 256) (hlen : packet.length < U64)
    (hbound : o + l ≤ packet.length) (hw : 8 * l ≤ w) :
    extractValueU w packet o l .NETWORK = bigEndianValue (sliceBytes packet o l) ∧
    extractValueU w packet o l .BIG = bigEndianValue (sliceBytes packet o l) ∧
    extractValueU w packet o l .HOST = bigEndianValue (sliceBytes packet o l) ∧
    extractValueU w packet o l .LITTLE = littleEndianValue (sliceBytes packet o l) := by
  have hwrap : wrap64 (o + l) = o + l := Nat.mod_eq_of_lt (by
    have : o + l ≤ packet.length := hbound
    unfold U64 at *
    omega)
  have hguard : ¬ wrap64 (o + l) > packet.length := by omega
  refine ⟨?_, ?_, ?_, ?_⟩ <;> unfold extractValueU <;> rw [if_neg hguard]
  · exact extractBE_eq_bigEndianValue w packet hbytes l o hbound hw
  · exact extractBE_eq_bigEndianValue w packet hbytes l o hbound hw
  · exact extractBE_eq_bigEndianValue w packet hbytes l o hbound hw
  · exact extractLE_eq_littleEndianValue w packet hbytes o l hbound hw

/-- Witness for the amended C3 at a concrete input: the two-byte buffer
`[1, 2]` read as a 16-bit value in each endianness. -/
theorem extractValue_endianness_witness :
    extractValueU 16 [1, 2] 0 2 .NETWORK = bigEndianValue (sliceBytes [1, 2] 0 2) ∧
    extractValueU 16 [1, 2] 0 2 .BIG = bigEndianValue (sliceBytes [1, 2] 0 2) ∧
    extractValueU 16 [1, 2] 0 2 .HOST = bigEndianValue (sliceBytes [1, 2] 0 2) ∧
    extractValueU 16 [1, 2] 0 2 .LITTLE = littleEndianValue (sliceBytes [1, 2] 0 2) :=
  extractValue_endianness 16 [1, 2] 0 2 (by decide) (by decide) (by decide) (by decide)

/-- C3 counterexample: the claim says `HOST` decodes in the platform byte
order (little-endian on a little-endian host, the target platform); on the
buffer `[1, 2]` the code yields the big-endian value 258, not the
little-endian 513. -/
theorem extractValue_host_not_platform_order :
    extractValueU 16 [1, 2] 0 2 .HOST ≠ littleEndianValue (sliceBytes [1, 2] 0 2) := by
  decide

/-- C4: evaluation at the failing input.  For the field with
`offset = 2 ^ 64 - 1` and `length = 2` on the one-byte buffer `[0]`, the
`size_t` sum `offset + length` wraps to 1, so the bounds guard admits the
field; the byte range is not inside the buffer (`extractFieldChecked` is
`none`: the C++ reads past the end), and the extraction marks the value
`valid = true` instead of the claimed `valid = false`. -/
theorem extractField_sizet_wrap_reads_past_buffer :
    wrap64 (overflowField.offset + overflowField.length) ≤ ([0] : List Nat).length ∧
    extractFieldChecked [0] overflowField = none ∧
    (extractField [0] overflowField).valid = true := by
  refine ⟨by decide, by decide, by decide⟩

/-- C5 counterexample: on a freshly constructed mmap-ring (AF_XDP) backend
with no filter program loaded or attached, `initialize` followed by `start`
returns success and leaves the backend running (stub mode), contradicting the
claimed failure. -/
theorem xdp_start_succeeds_without_program :
    freshXdpBackend.xdpProgramLoaded = false ∧
    (xdpInitialize true freshXdpBackend).1 = BResult.ok ∧
    (xdpStart (xdpInitialize true freshXdpBackend).2).1 = BResult.ok ∧
    (xdpStart (xdpInitialize true freshXdpBackend).2).2.running = true := by
  refine ⟨rfl, rfl, rfl, rfl⟩

/-- C5 (amended): `start` after `initialize` succeeds with no program
attached (capture runs in stub mode); the attachment prerequisite is enforced
at socket-bind time instead — `bindToInterface` fails in every environment in
which no filter program is attached to the interface. -/
theorem xdp_bind_requires_attached_program (env : XdpBindEnv) (st : XdpBackendState)
    (henv : env.programAttached = false) (hinit : st.initialized = true)
    (hrun : st.running = false) :
    bindToInterface env = false ∧
    (xdpStart st).1 = BResult.ok ∧ (xdpStart st).2.running = true := by
  refine ⟨?_, ?_, ?_⟩
  · unfold bindToInterface
    cases env.interfaceIndex with
    | none => rfl
    | some i => rw [henv]; rfl
  · unfold xdpStart
    rw [hinit, hrun]
    rfl
  · unfold xdpStart
    rw [hinit, hrun]
    rfl

/-- Witness for the amended C5: the concrete no-program environment and the
initialized backend. -/
theorem xdp_bind_requires_attached_program_witness :
    bindToInterface noAttachEnv = false ∧
    (xdpStart initializedXdpBackend).1 = BResult.ok ∧
    (xdpStart initializedXdpBackend).2.running = true :=
  xdp_bind_requires_attached_program noAttachEnv initializedXdpBackend rfl rfl rfl

/-- C6 counterexample: with the backend Running, DMA access enabled and no
buffers allocated, `allocateDMABuffers 16` succeeds and installs 16 buffers
(and `freeDMABuffers` then also succeeds), contradicting the claim that both
refuse while Running and leave the DMA buffer set unchanged. -/
theorem allocateDMABuffers_ignores_running :
    runningDmaBackend.running = true ∧
    (allocateDMABuffers okDmaEnv runningDmaBackend 16).1 = BResult.ok ∧
    (allocateDMABuffers okDmaEnv runningDmaBackend 16).2.dmaBufferCount = 16 ∧
    (allocateDMABuffers okDmaEnv runningDmaBackend 16).2.dmaAllocated = true ∧
    (freeDMABuffers (allocateDMABuffers okDmaEnv runningDmaBackend 16).2).1 =
      BResult.ok ∧
    (freeDMABuffers (allocateDMABuffers okDmaEnv runningDmaBackend 16).2).2.dmaAllocated =
      false := by
  refine ⟨rfl, rfl, rfl, rfl, rfl, rfl⟩

/-- C6 (amended): of the four DMA buffer-manager operations, `enableDMAAccess`
and `setDMABufferSize` refuse (with `INVALID_ARGUMENT`, state unchanged)
whenever the backend is Running; `allocateDMABuffers` and `freeDMABuffers`
perform no running-state check. -/
theorem dma_config_ops_refuse_while_running (st : DmaState) (enabled : Bool)
    (device : String) (size : Nat) (h : st.running = true) :
    enableDMAAccess st enabled device = (BResult.err ErrorCode.INVALID_ARGUMENT, st) ∧
    setDMABufferSize st size = (BResult.err ErrorCode.INVALID_ARGUMENT, st) := by
  constructor
  · unfold enableDMAAccess
    rw [h]
    rfl
  · unfold setDMABufferSize
    rw [h]
    rfl

/-- Witness for the amended C6 at the concrete Running state. -/
theorem dma_config_ops_refuse_while_running_witness :
    enableDMAAccess runningDmaBackend true "/dev/dma1" =
      (BResult.err ErrorCode.INVALID_ARGUMENT, runningDmaBackend) ∧
    setDMABufferSize runningDmaBackend 0 =
      (BResult.err ErrorCode.INVALID_ARGUMENT, runningDmaBackend) :=
  dma_config_ops_refuse_while_running runningDmaBackend true "/dev/dma1" 0 rfl

/-- C7: evaluation at the failing input.  A `/32` range matches exactly its
address, as claimed; but for `/0` the mask computation shifts a 32-bit value
by 32 — undefined behaviour in C++ (`isIPInRangeChecked` is `none`) — and
under the x86-executed shift (count taken modulo 32) the mask stays
`0xFFFFFFFF`, so `5.6.7.8/0` fails to match `1.2.3.4` although the claim says
`/0` matches every address. -/
theorem isIPInRange_cidr_slash_zero_bug :
    isIPInRange [1, 2, 3, 4] "1.2.3.4/32" = true ∧
    isIPInRange [1, 2, 3, 5] "1.2.3.4/32" = false ∧
    isIPInRangeChecked [1, 2, 3, 4] "5.6.7.8/0" = none ∧
    isIPInRange [1, 2, 3, 4] "5.6.7.8/0" = false := by
  refine ⟨by decide, by decide, by decide, by decide⟩

/-- C8 counterexample: after `loadBuiltins()` the registry does not contain
an IPv6 protocol (nor ARP, VLAN, MPLS, DNS or the HTTP protocols):
`initializeBuiltinProtocols` registers only five definitions. -/
theorem loadBuiltins_ipv6_missing :
    hasProtocol (loadBuiltinProtocols emptyRegistry) "ipv6" = false ∧
    hasProtocol (loadBuiltinProtocols emptyRegistry) "arp" = false ∧
    hasProtocol (loadBuiltinProtocols emptyRegistry) "vlan" = false ∧
    hasProtocol (loadBuiltinProtocols emptyRegistry) "mpls" = false ∧
    hasProtocol (loadBuiltinProtocols emptyRegistry) "dns" = false ∧
    hasProtocol (loadBuiltinProtocols emptyRegistry) "http_request" = false ∧
    hasProtocol (loadBuiltinProtocols emptyRegistry) "http_response" = false := by
  refine ⟨rfl, rfl, rfl, rfl, rfl, rfl, rfl⟩

/-- C8 (amended): after `loadBuiltins()` the registry contains exactly the
five built-ins Ethernet, IPv4, TCP, UDP and ICMP. -/
theorem loadBuiltins_registers_core_five :
    hasProtocol (loadBuiltinProtocols emptyRegistry) "ethernet" = true ∧
    hasProtocol (loadBuiltinProtocols emptyRegistry) "ipv4" = true ∧
    hasProtocol (loadBuiltinProtocols emptyRegistry) "tcp" = true ∧
    hasProtocol (loadBuiltinProtocols emptyRegistry) "udp" = true ∧
    hasProtocol (loadBuiltinProtocols emptyRegistry) "icmp" = true ∧
    (loadBuiltinProtocols emptyRegistry).protocols.length = 5 := by
  refine ⟨rfl, rfl, rfl, rfl, rfl, rfl⟩

/-- C9: evaluation at the failing input.  With performance metrics enabled
(the default), the very first `parsePacket` call that fails — here a
too-short buffer against the built-in UDP protocol — reaches the average
computation with `successfulParses = 0`: `updateStats` divides by zero
(`none`). -/
theorem updateStats_first_failed_parse_divides_by_zero :
    defaultParserConfig.enablePerformanceMetrics = true ∧
    (parsePacket defaultParserConfig [] createUDPProtocol).status ≠
      ParseStatus.SUCCESS ∧
    updateStats initParserStats (parsePacket defaultParserConfig [] createUDPProtocol)
      5 0 = none := by
  refine ⟨rfl, by decide, rfl⟩

/-- C10: evaluation at the failing input.  With no protocols registered,
`parsePacket(buffer, "")` takes element 0 of the empty multi-protocol result
list: the access is out of bounds (`none`), not a well-defined `ParseResult`. -/
theorem parsePacket_empty_name_no_protocols_out_of_bounds :
    parsePacketMultipleProtocols defaultParserConfig [] [1, 2, 3] = [] ∧
    parsePacketByName defaultParserConfig [] [1, 2, 3] "" = none := by
  refine ⟨rfl, rfl⟩

end Beatrice
